import Mathlib

/-! # Channel adapter of `rabbitmq.go`

A shallow embedding of the seven operations of the `rabbitmq` adapter and of
its constructor `NewRabbitMQ`.

* The adapter is a record of handles; every operation takes the adapter and
  the world and returns its Go results together with the adapter and the
  world afterwards (explicit state passing for the pointer receiver).
* The broker client (`amqp091-go`), `encoding/json` and the logger
  constructor are not part of the repository.  They are the fields of `Env`:
  each call is answered by a function of the world at the time of the call
  and the arguments, and is recorded in `World.calls`.
* A Go channel is a `ChanState`: the values its sender has ready, in order,
  and whether it has been closed.  A channel-typed field is `Option Nat`,
  `none` being the nil channel.  What the sender side will do while a
  receiver waits is the list `World.future`, consumed one event at a time.
* A Go `error` is `Option ErrorValue`, `none` being the nil interface.  A
  non-nil interface whose dynamic value is a nil `*amqp.Error` is
  `some (ErrorValue.amqp none)`.
* Handles for the logger, the connection and the broker channel are taken to
  be valid: `NewRabbitMQ` only builds an adapter out of the results of calls
  that reported no error.
-/

namespace RabbitMQSDK

/-! ## Go and library data -/

/-- Go `[]byte`; `none` is the nil slice. -/
abbrev Bytes := Option (List Nat)

/-- Go `len` on a byte slice. -/
def Bytes.len : Bytes → Nat
  | none => 0
  | some l => l.length

/-- The record `amqp.Error`. -/
structure AmqpError where
  Code : Int
  Reason : String
  Server : Bool
  Recover : Bool
  deriving DecidableEq, Repr

/-- Dynamic value held by a non-nil Go `error` interface. -/
inductive ErrorValue where
  /-- a `*amqp.Error`; the pointer itself may be nil -/
  | amqp (p : Option AmqpError)
  /-- the value `context.DeadlineExceeded` -/
  | deadlineExceeded
  /-- any other error, by its message -/
  | other (msg : String)
  deriving DecidableEq, Repr

/-- Go `error`; `none` is the nil interface. -/
abbrev GoError := Option ErrorValue

/-- The method `Timeout() bool` that `context.DeadlineExceeded` carries. -/
def ErrorValue.Timeout : ErrorValue → Bool
  | .deadlineExceeded => true
  | _ => false

/-- Values of an `amqp.Table` entry (`interface{}`), as far as they are passed
through. -/
inductive FieldValue where
  | null
  | bool (b : Bool)
  | int (i : Int)
  | str (s : String)
  deriving DecidableEq, Repr

/-- Go `map[string]interface{}` as an association list. -/
abbrev Table := List (String × FieldValue)

/-- The record `amqp.Queue`. -/
structure Queue where
  Name : String := ""
  Messages : Int := 0
  Consumers : Int := 0
  deriving DecidableEq, Repr

/-- The record `amqp.Publishing`; a field that is not given is its zero
value (`Timestamp` in nanoseconds; `Typ` is the field `Type`). -/
structure Publishing where
  Headers : Table := []
  ContentType : String := ""
  ContentEncoding : String := ""
  DeliveryMode : Nat := 0
  Priority : Nat := 0
  CorrelationId : String := ""
  ReplyTo : String := ""
  Expiration : String := ""
  MessageId : String := ""
  Timestamp : Nat := 0
  Typ : String := ""
  UserId : String := ""
  AppId : String := ""
  Body : Bytes := none
  deriving DecidableEq, Repr

/-- The record `amqp.Delivery`, with the fields that identify a delivery and
the one field the adapter reads, `Body`. -/
structure Delivery where
  ContentType : String := ""
  ConsumerTag : String := ""
  DeliveryTag : Nat := 0
  Redelivered : Bool := false
  Exchange : String := ""
  RoutingKey : String := ""
  Body : Bytes := none
  deriving DecidableEq, Repr

/-- Zero value of `amqp.Delivery`, what a receive on a closed channel gives. -/
def Delivery.zero : Delivery := {}

/-- Go `time.Second`, a `time.Duration` in nanoseconds. -/
def Second : Nat := 1000000000

/-- Go `context.Context`, by its deadline in nanoseconds (`none`: no
deadline). -/
structure Context where
  deadline : Option Nat
  deriving DecidableEq, Repr

/-- Go `context.Background()`. -/
def Background : Context := ⟨none⟩

/-- Go `context.WithTimeout(parent, d)` evaluated at time `now`: the earlier
of the parent deadline and `now + d`. -/
def WithTimeout (now : Nat) (parent : Context) (d : Nat) : Context :=
  match parent.deadline with
  | none => ⟨some (now + d)⟩
  | some p => ⟨some (min p (now + d))⟩

/-- Handle of a `*zap.Logger`. -/
abbrev LoggerRef := Nat
/-- Handle of a `*amqp.Connection`. -/
abbrev ConnectionRef := Nat
/-- Handle of a `*amqp.Channel`. -/
abbrev ChannelRef := Nat

/-! ## The world -/

/-- One call of a method of the broker client. -/
inductive Call where
  | Channel (conn : ConnectionRef)
  | Close (ch : ChannelRef)
  | PublishWithContext (ch : ChannelRef) (ctx : Context) (exchange key : String)
      (mandatory immediate : Bool) (msg : Publishing)
  | QueueDeclare (ch : ChannelRef) (name : String)
      (durable autoDelete exclusive noWait : Bool) (args : Table)
  | ExchangeDeclare (ch : ChannelRef) (name kind : String)
      (durable autoDelete internal noWait : Bool) (args : Table)
  | QueueBind (ch : ChannelRef) (name key exchange : String) (noWait : Bool) (args : Table)
  | Consume (ch : ChannelRef) (queue consumer : String)
      (autoAck exclusive noLocal noWait : Bool) (args : Table)
  deriving DecidableEq, Repr

/-- The level of a log entry. -/
inductive Level where
  | Info
  | Error
  deriving DecidableEq, Repr

/-- A `zap.Field`. -/
inductive Field where
  | Error (err : GoError)
  | String (key val : String)
  | Bool (key : String) (val : Bool)
  deriving DecidableEq, Repr

/-- One structured log entry. -/
structure LogEntry where
  logger : LoggerRef
  level : Level
  msg : String
  fields : List Field
  deriving DecidableEq, Repr

/-- A Go channel seen from its receiver: the values the sender has ready and
whether the channel has been closed. -/
structure ChanState (α : Type) where
  pending : List α := []
  closed : Bool := false
  deriving DecidableEq, Repr

/-- A receive can proceed: a value is ready, or the channel is closed. -/
def ChanState.ready {α : Type} (c : ChanState α) : Bool :=
  match c.pending with
  | _ :: _ => true
  | [] => c.closed

/-- A receive that can proceed: the first ready value, or the zero value of a
closed and drained channel (which stays as it is). -/
def ChanState.recv {α : Type} (zero : α) (c : ChanState α) : α × ChanState α :=
  match c.pending with
  | x :: xs => (x, { c with pending := xs })
  | [] => (zero, c)

/-- The sender makes one more value ready (nothing on a closed channel). -/
def ChanState.send {α : Type} (c : ChanState α) (x : α) : ChanState α :=
  if c.closed then c else { c with pending := c.pending ++ [x] }

/-- The sender closes the channel. -/
def ChanState.close {α : Type} (c : ChanState α) : ChanState α :=
  { c with closed := true }

/-- What the sending side of a channel does while a receiver waits. -/
inductive Event where
  | errSend (i : Nat) (e : Option AmqpError)
  | errClose (i : Nat)
  | msgSend (i : Nat) (d : Delivery)
  | msgClose (i : Nat)
  deriving DecidableEq, Repr

/-- Everything outside the adapter record. -/
structure World where
  /-- wall clock, nanoseconds -/
  now : Nat
  /-- broker-client calls made so far, oldest first -/
  calls : List Call
  /-- log entries written so far, oldest first -/
  zlog : List LogEntry
  /-- the channels of type `chan *amqp.Error` -/
  errChans : Nat → ChanState (Option AmqpError)
  /-- the channels of type `chan amqp.Delivery` -/
  msgChans : Nat → ChanState Delivery
  /-- what the senders will do, in order, while a receiver waits -/
  future : List Event

/-- Record a broker-client call. -/
def World.call (w : World) (c : Call) : World :=
  { w with calls := w.calls ++ [c] }

/-- Write a log entry. -/
def World.log (w : World) (l : LoggerRef) (lvl : Level) (msg : String) (fields : List Field) :
    World :=
  { w with zlog := w.zlog ++ [⟨l, lvl, msg, fields⟩] }

/-- One event of the sending side takes place. -/
def World.apply (w : World) : Event → World
  | .errSend i e => { w with errChans := Function.update w.errChans i ((w.errChans i).send e) }
  | .errClose i => { w with errChans := Function.update w.errChans i (w.errChans i).close }
  | .msgSend i d => { w with msgChans := Function.update w.msgChans i ((w.msgChans i).send d) }
  | .msgClose i => { w with msgChans := Function.update w.msgChans i (w.msgChans i).close }

/-- The collaborators outside the repository: `gosdk.NewLogger`,
`json.Marshal` and the methods of `*amqp.Connection` and `*amqp.Channel`.
Each answers from the world at the time of the call and its arguments. -/
structure Env (Msg : Type) where
  NewLogger : World → LoggerRef
  Marshal : Msg → Bytes × GoError
  Channel : World → ConnectionRef → ChannelRef × GoError
  Close : World → ChannelRef → GoError
  PublishWithContext : World → ChannelRef → Context → String → String → Bool → Bool →
    Publishing → GoError
  QueueDeclare : World → ChannelRef → String → Bool → Bool → Bool → Bool → Table →
    Queue × GoError
  ExchangeDeclare : World → ChannelRef → String → String → Bool → Bool → Bool → Bool → Table →
    GoError
  QueueBind : World → ChannelRef → String → String → String → Bool → Table → GoError
  Consume : World → ChannelRef → String → String → Bool → Bool → Bool → Bool → Table →
    Option Nat × GoError

/-! ## The adapter -/

/-- The record `rabbitmq`. -/
structure rabbitmq where
  logger : LoggerRef
  conn : ConnectionRef
  channel : ChannelRef
  errCh : Option Nat := none
  messageChan : Option Nat := none
  deriving DecidableEq, Repr

variable {Msg : Type}

/-- Go `NewRabbitMQ`. -/
def NewRabbitMQ (env : Env Msg) (conn : ConnectionRef) (w : World) :
    (Option rabbitmq × GoError) × World :=
  let logger := env.NewLogger w
  let (ch, err) := env.Channel w conn
  let w1 := w.call (.Channel conn)
  match err with
  | some e =>
    ((none, some e), w1.log logger .Error "Error when creating channel" [.Error (some e)])
  | none =>
    ((some { logger := logger, conn := conn, channel := ch }, none), w1)

/-- Go `(*rabbitmq).Close`. -/
def Close (env : Env Msg) (r : rabbitmq) (w : World) : Unit × rabbitmq × World :=
  let _err := env.Close w r.channel
  ((), r, w.call (.Close r.channel))

/-- Go `(*rabbitmq).Publish`. -/
def Publish (env : Env Msg) (r : rabbitmq) (exchangeName key : String) (message : Msg)
    (w : World) : GoError × rabbitmq × World :=
  let ctx := WithTimeout w.now Background (5 * Second)
  let (body, err) := env.Marshal message
  match err with
  | some e =>
    (some e, r, w.log r.logger .Error "error while convert message to json"
      [.Error (some e), .String "exchange_name" exchangeName, .String "key" key])
  | none =>
    let pub : Publishing := { ContentType := "application/json", Body := body }
    let err := env.PublishWithContext w r.channel ctx exchangeName key false false pub
    let w1 := w.call (.PublishWithContext r.channel ctx exchangeName key false false pub)
    match err with
    | some e =>
      (some e, r, w1.log r.logger .Error "error while publish message to rabbitmq"
        [.Error (some e), .String "exchange_name" exchangeName, .String "key" key])
    | none =>
      (none, r, w1.log r.logger .Info "successfully publish message to rabbitmq"
        [.String "exchange_name" exchangeName, .String "key" key])

/-- Go `(*rabbitmq).CreateQueue`. -/
def CreateQueue (env : Env Msg) (r : rabbitmq) (name : String)
    (durable autoDelete exclusive noWait : Bool) (args : Table) (w : World) :
    (Queue × GoError) × rabbitmq × World :=
  let (queue, err) := env.QueueDeclare w r.channel name durable autoDelete exclusive noWait args
  let w1 := w.call (.QueueDeclare r.channel name durable autoDelete exclusive noWait args)
  match err with
  | some e =>
    (({}, some e), r, w1.log r.logger .Error "error while creating queue"
      [.Error (some e), .String "name" name, .Bool "durable" durable,
       .Bool "autoDelete" autoDelete, .Bool "exclusive" exclusive, .Bool "noWait" noWait])
  | none => ((queue, none), r, w1)

/-- Go `(*rabbitmq).CreateExchange`. -/
def CreateExchange (env : Env Msg) (r : rabbitmq) (name kind : String)
    (durable autoDelete internal noWait : Bool) (args : Table) (w : World) :
    GoError × rabbitmq × World :=
  let err := env.ExchangeDeclare w r.channel name kind durable autoDelete internal noWait args
  let w1 := w.call (.ExchangeDeclare r.channel name kind durable autoDelete internal noWait args)
  match err with
  | some e =>
    (some e, r, w1.log r.logger .Error "error while creating exchange"
      [.Error (some e), .String "name" name, .String "kind" kind, .Bool "durable" durable,
       .Bool "autoDelete" autoDelete, .Bool "internal" internal, .Bool "noWait" noWait])
  | none => (none, r, w1)

/-- Go `(*rabbitmq).BindQueueWithExchange`. -/
def BindQueueWithExchange (env : Env Msg) (r : rabbitmq) (queueName key exchangeName : String)
    (noWait : Bool) (args : Table) (w : World) : GoError × rabbitmq × World :=
  let err := env.QueueBind w r.channel queueName key exchangeName noWait args
  let w1 := w.call (.QueueBind r.channel queueName key exchangeName noWait args)
  match err with
  | some e =>
    (some e, r, w1.log r.logger .Error "error while queue binding" [.Error (some e)])
  | none =>
    (none, r, w1.log r.logger .Info "binding queue"
      [.String "queue_name" queueName, .String "exchange" exchangeName, .String "key" key,
       .Bool "noWait" noWait])

/-- Go `(*rabbitmq).CreateMessageChannel`: the first result of `Consume` is
assigned to `messageChan` before the error is looked at. -/
def CreateMessageChannel (env : Env Msg) (r : rabbitmq) (queue consumer : String)
    (autoAck exclusive noLocal noWait : Bool) (args : Table) (w : World) :
    GoError × rabbitmq × World :=
  let (stream, err) := env.Consume w r.channel queue consumer autoAck exclusive noLocal noWait args
  let r1 := { r with messageChan := stream }
  let w1 := w.call (.Consume r.channel queue consumer autoAck exclusive noLocal noWait args)
  match err with
  | some e =>
    (some e, r1, w1.log r.logger .Error "error when consuming message"
      [.Error (some e), .String "queue" queue, .String "consumer" consumer,
       .Bool "autoAck" autoAck, .Bool "exclusive" exclusive, .Bool "noLocal" noLocal,
       .Bool "noWait" noWait])
  | none => (none, r1, w1)

/-! ### `Listen` and its `select` -/

/-- The two cases of the `select` statement in `Listen`. -/
inductive SelectCase where
  | errCase
  | msgCase
  deriving DecidableEq, Repr

/-- The case `<-r.errCh` can proceed (never on a nil channel). -/
def errReady (r : rabbitmq) (w : World) : Bool :=
  match r.errCh with
  | none => false
  | some i => (w.errChans i).ready

/-- The case `<-r.messageChan` can proceed (never on a nil channel). -/
def msgReady (r : rabbitmq) (w : World) : Bool :=
  match r.messageChan with
  | none => false
  | some i => (w.msgChans i).ready

/-- Go `select` over two cases: the only case that can proceed; when both
can, the one the runtime picks (`pick = true`: the first); `none` when the
statement has to wait. -/
def chooseCase (eReady mReady pick : Bool) : Option SelectCase :=
  match eReady, mReady with
  | true, true => some (if pick then .errCase else .msgCase)
  | true, false => some .errCase
  | false, true => some .msgCase
  | false, false => none

/-- The `select` of `Listen` waiting through the events to come: the case
taken and the world at that moment, `none` when no case ever can proceed. -/
def Listen.wait (r : rabbitmq) (pick : Bool) : List Event → World → Option (SelectCase × World)
  | [], w =>
    match chooseCase (errReady r w) (msgReady r w) pick with
    | some c => some (c, { w with future := [] })
    | none => none
  | ev :: rest, w =>
    match chooseCase (errReady r w) (msgReady r w) pick with
    | some c => some (c, { w with future := ev :: rest })
    | none => Listen.wait r pick rest (w.apply ev)

/-- Go `(*rabbitmq).Listen`; `none` when the call blocks for ever. -/
def Listen (_env : Env Msg) (r : rabbitmq) (pick : Bool) (w : World) :
    Option ((Bytes × GoError) × rabbitmq × World) :=
  match Listen.wait r pick w.future w with
  | none => none
  | some (.errCase, w1) =>
    match r.errCh with
    | none => none
    | some i =>
      let (err, c) := (w1.errChans i).recv none
      let w2 := { w1 with errChans := Function.update w1.errChans i c }
      let e : GoError := some (.amqp err)
      some ((none, e), r,
        w2.log r.logger .Error "error while receive message from rabbitmq" [.Error e])
  | some (.msgCase, w1) =>
    match r.messageChan with
    | none => none
    | some i =>
      let (msg, c) := (w1.msgChans i).recv Delivery.zero
      let w2 := { w1 with msgChans := Function.update w1.msgChans i c }
      some ((msg.Body, none), r, w2)

/-! ## Sequences of operations -/

/-- One step of a caller that owns the adapter: one of the seven operations
with its arguments, or waiting while the clock advances by `dt` and the next
`n` events of the sending sides take place. -/
inductive Op (Msg : Type) where
  | Close
  | Publish (exchangeName key : String) (message : Msg)
  | CreateQueue (name : String) (durable autoDelete exclusive noWait : Bool) (args : Table)
  | CreateExchange (name kind : String) (durable autoDelete internal noWait : Bool)
      (args : Table)
  | BindQueueWithExchange (queueName key exchangeName : String) (noWait : Bool) (args : Table)
  | CreateMessageChannel (queue consumer : String) (autoAck exclusive noLocal noWait : Bool)
      (args : Table)
  | Listen (pick : Bool)
  | idle (dt n : Nat)

/-- The step is a call of `CreateMessageChannel`. -/
def Op.isCreateMessageChannel : Op Msg → Bool
  | .CreateMessageChannel .. => true
  | _ => false

/-- The world after the events `evs` have taken place, in order. -/
def World.after (w : World) (evs : List Event) : World :=
  evs.foldl World.apply w

/-- The clock advances by `dt` and the next `n` events take place. -/
def World.idle (w : World) (dt n : Nat) : World :=
  { (w.after (w.future.take n)) with now := w.now + dt, future := w.future.drop n }

/-- Run one step: the error it returned (`none` for `Close` and `idle`, which
return nothing) and the state afterwards; `none` when the step never
returns. -/
def Op.run (env : Env Msg) : Op Msg → rabbitmq → World → Option (GoError × rabbitmq × World)
  | .Close, r, w => some (none, (RabbitMQSDK.Close env r w).2)
  | .Publish exchangeName key message, r, w => some (RabbitMQSDK.Publish env r exchangeName key message w)
  | .CreateQueue name durable autoDelete exclusive noWait args, r, w =>
    let res := RabbitMQSDK.CreateQueue env r name durable autoDelete exclusive noWait args w
    some (res.1.2, res.2)
  | .CreateExchange name kind durable autoDelete internal noWait args, r, w =>
    some (RabbitMQSDK.CreateExchange env r name kind durable autoDelete internal noWait args w)
  | .BindQueueWithExchange queueName key exchangeName noWait args, r, w =>
    some (RabbitMQSDK.BindQueueWithExchange env r queueName key exchangeName noWait args w)
  | .CreateMessageChannel queue consumer autoAck exclusive noLocal noWait args, r, w =>
    some (RabbitMQSDK.CreateMessageChannel env r queue consumer autoAck exclusive noLocal noWait args w)
  | .Listen pick, r, w =>
    match RabbitMQSDK.Listen env r pick w with
    | none => none
    | some (res, st) => some (res.2, st)
  | .idle dt n, r, w => some (none, r, w.idle dt n)

/-- Run a sequence of steps from a state: the errors returned, step by step,
and the state at the end; `none` when some step never returns. -/
def runAll (env : Env Msg) : List (Op Msg) → rabbitmq → World →
    Option (List GoError × rabbitmq × World)
  | [], r, w => some ([], r, w)
  | op :: ops, r, w =>
    match op.run env r w with
    | none => none
    | some (e, r1, w1) =>
      match runAll env ops r1 w1 with
      | none => none
      | some (es, st) => some (e :: es, st)

/-- The adapter state `(r, w)` is reached from a successful `NewRabbitMQ` by
the steps `ops`, which returned the errors `errs`. -/
def ReachedBy (env : Env Msg) (ops : List (Op Msg)) (errs : List GoError) (r : rabbitmq)
    (w : World) : Prop :=
  ∃ conn w0 r0 w1, NewRabbitMQ env conn w0 = ((some r0, none), w1) ∧
    runAll env ops r0 w1 = some (errs, r, w)

/-- No call of `CreateMessageChannel` among the steps returned a nil error. -/
def NoRegistration (ops : List (Op Msg)) (errs : List GoError) : Prop :=
  ∀ p ∈ ops.zip errs, p.1.isCreateMessageChannel = true → p.2 ≠ none

/-- The convention of the broker client for the results of `Consume`: no
stream alongside an error. -/
def ConsumeNilOnError (env : Env Msg) : Prop :=
  ∀ w ch queue consumer autoAck exclusive noLocal noWait args,
    (env.Consume w ch queue consumer autoAck exclusive noLocal noWait args).2 ≠ none →
    (env.Consume w ch queue consumer autoAck exclusive noLocal noWait args).1 = none

/-! ## A concrete environment -/

/-- Three Go values to publish: a `bool`, a nil pointer, and a `chan int`,
which `encoding/json` does not encode. -/
inductive SampleMsg where
  | flag (b : Bool)
  | null
  | chan
  deriving DecidableEq, Repr

/-- Go `json.Marshal` on the three sample values (bytes of `true`, `false`,
`null`; an `UnsupportedTypeError` for the channel). -/
def sampleMarshal : SampleMsg → Bytes × GoError
  | .flag true => (some [116, 114, 117, 101], none)
  | .flag false => (some [102, 97, 108, 115, 101], none)
  | .null => (some [110, 117, 108, 108], none)
  | .chan => (none, some (.other "json: unsupported type: chan int"))

/-- The error of a broker that does not know the named entity. -/
def notFound : GoError := some (.amqp (some ⟨404, "NOT_FOUND", true, true⟩))

/-- A broker that knows the queue `q1` and the exchange `ex1`, delivers what
is consumed from `q1` on stream `7`, and does not answer a publish to the
exchange `slow` before the deadline. -/
def sampleEnv : Env SampleMsg where
  NewLogger _ := 0
  Marshal := sampleMarshal
  Channel _ conn := (conn + 1, none)
  Close _ _ := some (.other "channel/connection is not open")
  PublishWithContext _ _ _ exchange _ _ _ _ :=
    if exchange = "slow" then some .deadlineExceeded
    else if exchange = "ex1" then none else notFound
  QueueDeclare _ _ name _ _ _ _ _ :=
    if name = "q1" then (⟨"q1", 0, 0⟩, none) else (⟨name, 0, 0⟩, notFound)
  ExchangeDeclare _ _ name _ _ _ _ _ _ := if name = "ex1" then none else notFound
  QueueBind _ _ name _ exchange _ _ := if name = "q1" ∧ exchange = "ex1" then none else notFound
  Consume _ _ queue _ _ _ _ _ _ := if queue = "q1" then (some 7, none) else (none, notFound)

/-- A world in which nothing has happened yet and nothing will. -/
def sampleWorld : World where
  now := 0
  calls := []
  zlog := []
  errChans _ := {}
  msgChans _ := {}
  future := []

/-- The adapter that `NewRabbitMQ sampleEnv 0 sampleWorld` builds. -/
def sampleAdapter : rabbitmq := { logger := 0, conn := 0, channel := 1 }

/-- A delivery of the bytes of `true`. -/
def sampleDelivery : Delivery := { ConsumerTag := "c1", DeliveryTag := 1, Body := some [116, 114, 117, 101] }

/-- The sample adapter once registered on stream `7`. -/
def sampleRegistered : rabbitmq := { sampleAdapter with messageChan := some 7 }

/-- The world right after `NewRabbitMQ sampleEnv 0 sampleWorld`. -/
def sampleStart : World := sampleWorld.call (.Channel 0)

/-- A caller that declares `q1` and then tries to consume from the unknown
queue `q2`. -/
def sampleOps : List (Op SampleMsg) :=
  [.CreateQueue "q1" true false false false [],
   .CreateMessageChannel "q2" "c1" true false false false []]

/-- The world after `sampleOps`. -/
def sampleEnd : World :=
  (CreateMessageChannel sampleEnv sampleAdapter "q2" "c1" true false false false []
    (CreateQueue sampleEnv sampleAdapter "q1" true false false false [] sampleStart).2.2).2.2

/-! ## Properties -/

/-! ### Publish -/

/-- Publish, when the encoding fails: the error is returned, one log entry is
written and nothing else happens. -/
lemma Publish_of_marshal_error (env : Env Msg) (r : rabbitmq) (exchangeName key : String)
    (message : Msg) (w : World) (e : ErrorValue) (h : (env.Marshal message).2 = some e) :
    Publish env r exchangeName key message w =
      (some e, r, w.log r.logger .Error "error while convert message to json"
        [.Error (some e), .String "exchange_name" exchangeName, .String "key" key]) := by
  unfold Publish
  rcases hm : env.Marshal message with ⟨body, err⟩
  rw [hm] at h
  simp only at h
  subst h
  rfl

/-- Publish, when the encoding succeeds: the returned error is the answer of
the one broker call, which is the call recorded. -/
lemma Publish_of_marshal_ok (env : Env Msg) (r : rabbitmq) (exchangeName key : String)
    (message : Msg) (w : World) (h : (env.Marshal message).2 = none) :
    (Publish env r exchangeName key message w).1 =
        env.PublishWithContext w r.channel ⟨some (w.now + 5 * Second)⟩ exchangeName key
          false false { ContentType := "application/json", Body := (env.Marshal message).1 } ∧
      (Publish env r exchangeName key message w).2.1 = r ∧
      (Publish env r exchangeName key message w).2.2.calls =
        w.calls ++ [.PublishWithContext r.channel ⟨some (w.now + 5 * Second)⟩ exchangeName key
          false false { ContentType := "application/json", Body := (env.Marshal message).1 }] := by
  unfold Publish
  rcases hm : env.Marshal message with ⟨body, err⟩
  rw [hm] at h
  simp only at h
  subst h
  simp only [WithTimeout, Background]
  cases hp : env.PublishWithContext w r.channel ⟨some (w.now + 5 * Second)⟩ exchangeName key
      false false { ContentType := "application/json", Body := body } <;>
    simp [World.log, World.call]

/-- Claim C1: for a message whose JSON encoding succeeds, `Publish` makes a
broker publish call whose publishing has the encoding as its `Body` and
`application/json` as its `ContentType`, addressed to the exchange name and
the routing key that the caller passed; that call is the one recorded and
the one whose answer `Publish` returns. -/
theorem Publish_sends_json_encoding (env : Env Msg) (r : rabbitmq) (exchangeName key : String)
    (message : Msg) (w : World) (h : (env.Marshal message).2 = none) :
    ∃ ctx mandatory immediate pub,
      pub.Body = (env.Marshal message).1 ∧ pub.ContentType = "application/json" ∧
      (Publish env r exchangeName key message w).2.2.calls =
        w.calls ++ [.PublishWithContext r.channel ctx exchangeName key mandatory immediate pub] ∧
      (Publish env r exchangeName key message w).1 =
        env.PublishWithContext w r.channel ctx exchangeName key mandatory immediate pub := by
  obtain ⟨h1, _, h3⟩ := Publish_of_marshal_ok env r exchangeName key message w h
  exact ⟨_, _, _, _, rfl, rfl, h3, h1⟩

/-- Witness of C1: publishing `true` to `ex1` with key `k`. -/
theorem Publish_sends_json_encoding_witness :
    ∃ ctx mandatory immediate pub,
      pub.Body = (sampleEnv.Marshal (.flag true)).1 ∧ pub.ContentType = "application/json" ∧
      (Publish sampleEnv sampleAdapter "ex1" "k" (.flag true) sampleWorld).2.2.calls =
        sampleWorld.calls ++
          [.PublishWithContext sampleAdapter.channel ctx "ex1" "k" mandatory immediate pub] ∧
      (Publish sampleEnv sampleAdapter "ex1" "k" (.flag true) sampleWorld).1 =
        sampleEnv.PublishWithContext sampleWorld sampleAdapter.channel ctx "ex1" "k"
          mandatory immediate pub :=
  Publish_sends_json_encoding sampleEnv sampleAdapter "ex1" "k" (.flag true) sampleWorld rfl

/-- Claim C2: for a message whose JSON encoding fails with `e`, `Publish`
returns `e` (a non-nil error), records no broker call, and leaves the adapter
record, the streams and the pending events as they were. -/
theorem Publish_encoding_error (env : Env Msg) (r : rabbitmq) (exchangeName key : String)
    (message : Msg) (w : World) (e : ErrorValue) (h : (env.Marshal message).2 = some e) :
    (Publish env r exchangeName key message w).1 = some e ∧
      (Publish env r exchangeName key message w).1 ≠ none ∧
      (Publish env r exchangeName key message w).2.2.calls = w.calls ∧
      (Publish env r exchangeName key message w).2.1 = r ∧
      (Publish env r exchangeName key message w).2.2.errChans = w.errChans ∧
      (Publish env r exchangeName key message w).2.2.msgChans = w.msgChans ∧
      (Publish env r exchangeName key message w).2.2.future = w.future := by
  rw [Publish_of_marshal_error env r exchangeName key message w e h]
  simp [World.log]

/-- Witness of C2: publishing a channel value. -/
theorem Publish_encoding_error_witness :
    (Publish sampleEnv sampleAdapter "ex1" "k" .chan sampleWorld).1 =
        some (.other "json: unsupported type: chan int") ∧
      (Publish sampleEnv sampleAdapter "ex1" "k" .chan sampleWorld).1 ≠ none ∧
      (Publish sampleEnv sampleAdapter "ex1" "k" .chan sampleWorld).2.2.calls =
        sampleWorld.calls ∧
      (Publish sampleEnv sampleAdapter "ex1" "k" .chan sampleWorld).2.1 = sampleAdapter ∧
      (Publish sampleEnv sampleAdapter "ex1" "k" .chan sampleWorld).2.2.errChans =
        sampleWorld.errChans ∧
      (Publish sampleEnv sampleAdapter "ex1" "k" .chan sampleWorld).2.2.msgChans =
        sampleWorld.msgChans ∧
      (Publish sampleEnv sampleAdapter "ex1" "k" .chan sampleWorld).2.2.future =
        sampleWorld.future :=
  Publish_encoding_error sampleEnv sampleAdapter "ex1" "k" .chan sampleWorld _ rfl

/-- Claim C4: for a serializable message, `Publish` records exactly one
broker publish call, made with a deadline of `5 * Second` after the time of
the call and with `mandatory = false` and `immediate = false`, and returns
what that call answers: nil when it answers nil, its error unchanged
otherwise; in particular a call that answers with the expiry of the deadline
makes `Publish` return that timeout error. -/
theorem Publish_single_attempt (env : Env Msg) (r : rabbitmq) (exchangeName key : String)
    (message : Msg) (w : World) (h : (env.Marshal message).2 = none) :
    ∃ pub : Publishing,
      (Publish env r exchangeName key message w).2.2.calls =
        w.calls ++ [.PublishWithContext r.channel ⟨some (w.now + 5 * Second)⟩ exchangeName key
          false false pub] ∧
      5 * Second = 5000000000 ∧
      (Publish env r exchangeName key message w).1 =
        env.PublishWithContext w r.channel ⟨some (w.now + 5 * Second)⟩ exchangeName key
          false false pub ∧
      (env.PublishWithContext w r.channel ⟨some (w.now + 5 * Second)⟩ exchangeName key
          false false pub = some .deadlineExceeded →
        ∃ e, (Publish env r exchangeName key message w).1 = some e ∧ e.Timeout = true) := by
  obtain ⟨h1, _, h3⟩ := Publish_of_marshal_ok env r exchangeName key message w h
  refine ⟨_, h3, by decide, h1, fun ht => ⟨.deadlineExceeded, ?_, rfl⟩⟩
  rw [h1, ht]

/-- Witness of C4: publishing `true` to the exchange that does not answer in
time. -/
theorem Publish_single_attempt_witness :
    ∃ pub : Publishing,
      (Publish sampleEnv sampleAdapter "slow" "k" (.flag true) sampleWorld).2.2.calls =
        sampleWorld.calls ++ [.PublishWithContext sampleAdapter.channel
          ⟨some (sampleWorld.now + 5 * Second)⟩ "slow" "k" false false pub] ∧
      5 * Second = 5000000000 ∧
      (Publish sampleEnv sampleAdapter "slow" "k" (.flag true) sampleWorld).1 =
        sampleEnv.PublishWithContext sampleWorld sampleAdapter.channel
          ⟨some (sampleWorld.now + 5 * Second)⟩ "slow" "k" false false pub ∧
      (sampleEnv.PublishWithContext sampleWorld sampleAdapter.channel
          ⟨some (sampleWorld.now + 5 * Second)⟩ "slow" "k" false false pub =
            some .deadlineExceeded →
        ∃ e, (Publish sampleEnv sampleAdapter "slow" "k" (.flag true) sampleWorld).1 = some e ∧
          e.Timeout = true) :=
  Publish_single_attempt sampleEnv sampleAdapter "slow" "k" (.flag true) sampleWorld rfl

/-! ### Topology operations -/

/-- CreateQueue by cases on the answer of `QueueDeclare`. -/
lemma CreateQueue_spec (env : Env Msg) (r : rabbitmq) (name : String)
    (durable autoDelete exclusive noWait : Bool) (args : Table) (w : World) :
    (CreateQueue env r name durable autoDelete exclusive noWait args w).1.2 =
        (env.QueueDeclare w r.channel name durable autoDelete exclusive noWait args).2 ∧
      (CreateQueue env r name durable autoDelete exclusive noWait args w).1.1 =
        (match (env.QueueDeclare w r.channel name durable autoDelete exclusive noWait args).2 with
          | some _ => ({} : Queue)
          | none => (env.QueueDeclare w r.channel name durable autoDelete exclusive noWait args).1) ∧
      (CreateQueue env r name durable autoDelete exclusive noWait args w).2.1 = r ∧
      (CreateQueue env r name durable autoDelete exclusive noWait args w).2.2.calls =
        w.calls ++ [.QueueDeclare r.channel name durable autoDelete exclusive noWait args] := by
  unfold CreateQueue
  rcases hq : env.QueueDeclare w r.channel name durable autoDelete exclusive noWait args with
    ⟨q, err⟩
  cases err <;> simp [World.log, World.call]

/-- CreateExchange by cases on the answer of `ExchangeDeclare`. -/
lemma CreateExchange_spec (env : Env Msg) (r : rabbitmq) (name kind : String)
    (durable autoDelete internal noWait : Bool) (args : Table) (w : World) :
    (CreateExchange env r name kind durable autoDelete internal noWait args w).1 =
        env.ExchangeDeclare w r.channel name kind durable autoDelete internal noWait args ∧
      (CreateExchange env r name kind durable autoDelete internal noWait args w).2.1 = r ∧
      (CreateExchange env r name kind durable autoDelete internal noWait args w).2.2.calls =
        w.calls ++ [.ExchangeDeclare r.channel name kind durable autoDelete internal noWait args] := by
  unfold CreateExchange
  cases he : env.ExchangeDeclare w r.channel name kind durable autoDelete internal noWait args <;>
    simp [World.log, World.call]

/-- BindQueueWithExchange by cases on the answer of `QueueBind`. -/
lemma BindQueueWithExchange_spec (env : Env Msg) (r : rabbitmq)
    (queueName key exchangeName : String) (noWait : Bool) (args : Table) (w : World) :
    (BindQueueWithExchange env r queueName key exchangeName noWait args w).1 =
        env.QueueBind w r.channel queueName key exchangeName noWait args ∧
      (BindQueueWithExchange env r queueName key exchangeName noWait args w).2.1 = r ∧
      (BindQueueWithExchange env r queueName key exchangeName noWait args w).2.2.calls =
        w.calls ++ [.QueueBind r.channel queueName key exchangeName noWait args] := by
  unfold BindQueueWithExchange
  cases he : env.QueueBind w r.channel queueName key exchangeName noWait args <;>
    simp [World.log, World.call]

/-- Claim C6: each of `CreateQueue`, `CreateExchange` and
`BindQueueWithExchange`, for all arguments and every adapter state, returns
the error of its broker call unchanged, hence a non-nil error exactly when
the broker call returns one; `CreateQueue` pairs an error with the empty
queue descriptor and returns the descriptor of the broker otherwise; the
adapter record (logger, connection, channel, error stream, delivery stream)
is the same after the call as before. -/
theorem topology_operations_propagate (env : Env Msg) (r : rabbitmq) (w : World) :
    (∀ name durable autoDelete exclusive noWait args,
      (CreateQueue env r name durable autoDelete exclusive noWait args w).1.2 =
          (env.QueueDeclare w r.channel name durable autoDelete exclusive noWait args).2 ∧
        ((CreateQueue env r name durable autoDelete exclusive noWait args w).1.2 ≠ none ↔
          (env.QueueDeclare w r.channel name durable autoDelete exclusive noWait args).2 ≠ none) ∧
        ((env.QueueDeclare w r.channel name durable autoDelete exclusive noWait args).2 ≠ none →
          (CreateQueue env r name durable autoDelete exclusive noWait args w).1.1 =
            ({} : Queue)) ∧
        ((env.QueueDeclare w r.channel name durable autoDelete exclusive noWait args).2 = none →
          (CreateQueue env r name durable autoDelete exclusive noWait args w).1.1 =
            (env.QueueDeclare w r.channel name durable autoDelete exclusive noWait args).1) ∧
        (CreateQueue env r name durable autoDelete exclusive noWait args w).2.1 = r) ∧
    (∀ name kind durable autoDelete internal noWait args,
      (CreateExchange env r name kind durable autoDelete internal noWait args w).1 =
          env.ExchangeDeclare w r.channel name kind durable autoDelete internal noWait args ∧
        ((CreateExchange env r name kind durable autoDelete internal noWait args w).1 ≠ none ↔
          env.ExchangeDeclare w r.channel name kind durable autoDelete internal noWait args ≠
            none) ∧
        (CreateExchange env r name kind durable autoDelete internal noWait args w).2.1 = r) ∧
    (∀ queueName key exchangeName noWait args,
      (BindQueueWithExchange env r queueName key exchangeName noWait args w).1 =
          env.QueueBind w r.channel queueName key exchangeName noWait args ∧
        ((BindQueueWithExchange env r queueName key exchangeName noWait args w).1 ≠ none ↔
          env.QueueBind w r.channel queueName key exchangeName noWait args ≠ none) ∧
        (BindQueueWithExchange env r queueName key exchangeName noWait args w).2.1 = r) := by
  refine ⟨?_, ?_, ?_⟩
  · intro name durable autoDelete exclusive noWait args
    obtain ⟨h1, h2, h3, _⟩ :=
      CreateQueue_spec env r name durable autoDelete exclusive noWait args w
    refine ⟨h1, by rw [h1], ?_, ?_, h3⟩
    · intro hne
      rw [h2]
      cases he : (env.QueueDeclare w r.channel name durable autoDelete exclusive noWait args).2
      · exact absurd he hne
      · rfl
    · intro he
      rw [h2, he]
  · intro name kind durable autoDelete internal noWait args
    obtain ⟨h1, h2, _⟩ :=
      CreateExchange_spec env r name kind durable autoDelete internal noWait args w
    exact ⟨h1, by rw [h1], h2⟩
  · intro queueName key exchangeName noWait args
    obtain ⟨h1, h2, _⟩ := BindQueueWithExchange_spec env r queueName key exchangeName noWait args w
    exact ⟨h1, by rw [h1], h2⟩

/-- Witness of C6: declaring the unknown queue `q2` returns the empty
descriptor with the error of the broker, declaring `q1` returns its
descriptor, and the adapter record stays as it is. -/
theorem topology_operations_propagate_witness :
    (CreateQueue sampleEnv sampleAdapter "q2" true false false false [] sampleStart).1.1 =
        ({} : Queue) ∧
      (CreateQueue sampleEnv sampleAdapter "q2" true false false false [] sampleStart).1.2 =
        notFound ∧
      (CreateQueue sampleEnv sampleAdapter "q1" true false false false [] sampleStart).1.1 =
        ⟨"q1", 0, 0⟩ ∧
      (CreateQueue sampleEnv sampleAdapter "q2" true false false false [] sampleStart).2.1 =
        sampleAdapter :=
  have h := (topology_operations_propagate sampleEnv sampleAdapter sampleStart).1
  ⟨(h "q2" true false false false []).2.2.1 (by decide),
    (h "q2" true false false false []).1,
    (h "q1" true false false false []).2.2.2.1 rfl,
    (h "q2" true false false false []).2.2.2.2⟩

/-! ### The `select` of `Listen` -/

/-- What `Listen` does once its `select` has taken the error case in the
world `w1`. -/
lemma Listen_of_wait_err (env : Env Msg) (r : rabbitmq) (pick : Bool) (w w1 : World)
    (h : Listen.wait r pick w.future w = some (.errCase, w1)) :
    Listen env r pick w =
      match r.errCh with
      | none => none
      | some i =>
        some ((none, some (.amqp ((w1.errChans i).recv none).1)), r,
          { w1 with errChans := Function.update w1.errChans i ((w1.errChans i).recv none).2 }.log
            r.logger .Error "error while receive message from rabbitmq"
            [.Error (some (.amqp ((w1.errChans i).recv none).1))]) := by
  unfold Listen
  rw [h]

/-- What `Listen` does once its `select` has taken the delivery case in the
world `w1`. -/
lemma Listen_of_wait_msg (env : Env Msg) (r : rabbitmq) (pick : Bool) (w w1 : World)
    (h : Listen.wait r pick w.future w = some (.msgCase, w1)) :
    Listen env r pick w =
      match r.messageChan with
      | none => none
      | some i =>
        some ((((w1.msgChans i).recv Delivery.zero).1.Body, none), r,
          { w1 with
            msgChans := Function.update w1.msgChans i ((w1.msgChans i).recv Delivery.zero).2 }) := by
  unfold Listen
  rw [h]

/-- When the `select` never takes a case, `Listen` never returns. -/
lemma Listen_of_wait_none (env : Env Msg) (r : rabbitmq) (pick : Bool) (w : World)
    (h : Listen.wait r pick w.future w = none) : Listen env r pick w = none := by
  unfold Listen
  rw [h]

/-- The `select` waits through every event before which no case can proceed
and takes the case chosen at the first moment one can. -/
lemma wait_through (r : rabbitmq) (pick : Bool) (c : SelectCase) (post : List Event) :
    ∀ (pre : List Event) (w : World),
      (∀ k, k < pre.length →
        errReady r (w.after (pre.take k)) = false ∧ msgReady r (w.after (pre.take k)) = false) →
      chooseCase (errReady r (w.after pre)) (msgReady r (w.after pre)) pick = some c →
      Listen.wait r pick (pre ++ post) w = some (c, { (w.after pre) with future := post }) := by
  intro pre
  induction pre with
  | nil =>
    intro w _ hc
    simp only [World.after, List.foldl_nil] at hc
    cases post <;> simp [Listen.wait, hc, World.after]
  | cons ev pre ih =>
    intro w hw hc
    have h0 := hw 0 (by simp)
    simp only [World.after, List.take_zero, List.foldl_nil] at h0
    have hn : chooseCase (errReady r w) (msgReady r w) pick = none := by
      rw [h0.1, h0.2]; rfl
    have hrec := ih (w.apply ev) (fun k hk => by
      have := hw (k + 1) (by simpa using hk)
      simpa [World.after] using this) (by simpa [World.after] using hc)
    simp only [List.cons_append, Listen.wait, hn]
    exact hrec

/-- With both stream fields nil the `select` never takes a case. -/
lemma wait_nil_nil (r : rabbitmq) (pick : Bool) (he : r.errCh = none)
    (hm : r.messageChan = none) :
    ∀ (fut : List Event) (w : World), Listen.wait r pick fut w = none := by
  intro fut
  induction fut with
  | nil => intro w; simp [Listen.wait, errReady, msgReady, he, hm, chooseCase]
  | cons ev fut ih => intro w; simp [Listen.wait, errReady, msgReady, he, hm, chooseCase, ih]

/-- With a nil error stream the `select` never takes the error case. -/
lemma wait_errCh_nil (r : rabbitmq) (pick : Bool) (he : r.errCh = none) :
    ∀ (fut : List Event) (w w1 : World) (c : SelectCase),
      Listen.wait r pick fut w = some (c, w1) → c = .msgCase := by
  intro fut
  induction fut with
  | nil =>
    intro w w1 c h
    cases hm : msgReady r w <;>
      simp [Listen.wait, errReady, he, hm, chooseCase] at h
    exact h.1.symm
  | cons ev fut ih =>
    intro w w1 c h
    cases hm : msgReady r w
    · simp only [Listen.wait, errReady, he, hm, chooseCase] at h
      exact ih _ _ _ h
    · simp [Listen.wait, errReady, he, hm, chooseCase] at h
      exact h.1.symm

/-- An event commutes with the recording of a broker call. -/
lemma apply_call (w : World) (c : Call) (ev : Event) :
    (w.call c).apply ev = (w.apply ev).call c := by
  cases ev <;> rfl

/-- The `select` does not look at the recorded broker calls. -/
lemma wait_call (r : rabbitmq) (pick : Bool) (c : Call) :
    ∀ (fut : List Event) (w : World),
      Listen.wait r pick fut (w.call c) =
        (Listen.wait r pick fut w).map fun p => (p.1, p.2.call c) := by
  intro fut
  induction fut with
  | nil =>
    intro w
    have he : errReady r (w.call c) = errReady r w := rfl
    have hm : msgReady r (w.call c) = msgReady r w := rfl
    simp only [Listen.wait, he, hm]
    cases chooseCase (errReady r w) (msgReady r w) pick <;> rfl
  | cons ev fut ih =>
    intro w
    have he : errReady r (w.call c) = errReady r w := rfl
    have hm : msgReady r (w.call c) = msgReady r w := rfl
    simp only [Listen.wait, he, hm]
    cases chooseCase (errReady r w) (msgReady r w) pick
    · simp only [apply_call, ih]
    · rfl

/-- What `Listen` returns does not depend on the recorded broker calls. -/
lemma Listen_call (env : Env Msg) (r : rabbitmq) (pick : Bool) (c : Call) (w : World) :
    (Listen env r pick (w.call c)).map (fun res => res.1) =
      (Listen env r pick w).map (fun res => res.1) := by
  have hw := wait_call r pick c w.future w
  cases h : Listen.wait r pick w.future w with
  | none =>
    rw [h] at hw
    rw [Listen_of_wait_none env r pick w h, Listen_of_wait_none env r pick (w.call c) hw]
  | some p =>
    obtain ⟨k, w1⟩ := p
    rw [h] at hw
    cases k
    · rw [Listen_of_wait_err env r pick w w1 h,
        Listen_of_wait_err env r pick (w.call c) (w1.call c) hw]
      cases r.errCh <;> rfl
    · rw [Listen_of_wait_msg env r pick w w1 h,
        Listen_of_wait_msg env r pick (w.call c) (w1.call c) hw]
      cases r.messageChan <;> rfl

/-- Listen returns the value the error stream yields when that stream is the
first that can proceed. -/
lemma Listen_err_after (env : Env Msg) (r : rabbitmq) (pick : Bool) (w : World)
    (pre post : List Event) (i : Nat) (hfut : w.future = pre ++ post)
    (hquiet : ∀ k, k < pre.length →
      errReady r (w.after (pre.take k)) = false ∧ msgReady r (w.after (pre.take k)) = false)
    (hi : r.errCh = some i) (he : errReady r (w.after pre) = true)
    (hm : msgReady r (w.after pre) = false) :
    Listen env r pick w =
      some ((none, some (.amqp (((w.after pre).errChans i).recv none).1)), r,
        { (w.after pre) with
          future := post
          errChans := Function.update (w.after pre).errChans i
            (((w.after pre).errChans i).recv none).2 }.log
          r.logger .Error "error while receive message from rabbitmq"
          [.Error (some (.amqp (((w.after pre).errChans i).recv none).1))]) := by
  have hw := wait_through r pick .errCase post pre w hquiet (by rw [he, hm]; rfl)
  rw [← hfut] at hw
  rw [Listen_of_wait_err env r pick w _ hw, hi]

/-- Listen returns the body of the delivery the delivery stream yields when
that stream is the first that can proceed. -/
lemma Listen_msg_after (env : Env Msg) (r : rabbitmq) (pick : Bool) (w : World)
    (pre post : List Event) (j : Nat) (hfut : w.future = pre ++ post)
    (hquiet : ∀ k, k < pre.length →
      errReady r (w.after (pre.take k)) = false ∧ msgReady r (w.after (pre.take k)) = false)
    (hj : r.messageChan = some j) (hm : msgReady r (w.after pre) = true)
    (he : errReady r (w.after pre) = false) :
    Listen env r pick w =
      some (((((w.after pre).msgChans j).recv Delivery.zero).1.Body, none), r,
        { (w.after pre) with
          future := post
          msgChans := Function.update (w.after pre).msgChans j
            (((w.after pre).msgChans j).recv Delivery.zero).2 }) := by
  have hw := wait_through r pick .msgCase post pre w hquiet (by rw [he, hm]; rfl)
  rw [← hfut] at hw
  rw [Listen_of_wait_msg env r pick w _ hw, hj]

/-- Claim C3: let the events `pre` be those that take place while neither
stream of the adapter can yield.  If then the error stream yields `e` while
the delivery stream cannot yield, `Listen` returns no bytes and the non-nil
error holding `e`; if then the delivery stream yields `d` while the error
stream cannot yield, `Listen` returns `d.Body` and a nil error.  This holds
for every adapter record and whatever the runtime would pick. -/
theorem Listen_first_stream_wins (env : Env Msg) (r : rabbitmq) (pick : Bool) (w : World)
    (pre post : List Event) (hfut : w.future = pre ++ post)
    (hquiet : ∀ k, k < pre.length →
      errReady r (w.after (pre.take k)) = false ∧ msgReady r (w.after (pre.take k)) = false) :
    (∀ i e, r.errCh = some i → ((w.after pre).errChans i).ready = true →
      (((w.after pre).errChans i).recv none).1 = e → msgReady r (w.after pre) = false →
      ∃ w1, Listen env r pick w = some ((none, some (.amqp e)), r, w1) ∧
        (some (.amqp e) : GoError) ≠ none ∧ w1.future = post) ∧
    (∀ j d, r.messageChan = some j → ((w.after pre).msgChans j).ready = true →
      (((w.after pre).msgChans j).recv Delivery.zero).1 = d → errReady r (w.after pre) = false →
      ∃ w1, Listen env r pick w = some ((d.Body, none), r, w1) ∧ w1.future = post) := by
  constructor
  · intro i e hi hr hv hm
    have he : errReady r (w.after pre) = true := by simp [errReady, hi, hr]
    rw [Listen_err_after env r pick w pre post i hfut hquiet hi he hm, hv]
    exact ⟨_, rfl, by simp, rfl⟩
  · intro j d hj hr hv he
    have hm : msgReady r (w.after pre) = true := by simp [msgReady, hj, hr]
    rw [Listen_msg_after env r pick w pre post j hfut hquiet hj hm he, hv]
    exact ⟨_, rfl, rfl⟩

/-- Witness of C3: an adapter on the streams `3` and `7`; a delivery on another
stream takes place first, then the error stream yields `NOT_FOUND`. -/
theorem Listen_first_stream_wins_witness :
    ∃ w1, Listen sampleEnv { sampleAdapter with errCh := some 3, messageChan := some 7 } true
        { sampleWorld with
          future := [.msgSend 9 sampleDelivery, .errSend 3 (some ⟨404, "NOT_FOUND", true, true⟩),
            .msgSend 7 sampleDelivery] } =
        some ((none, some (.amqp (some ⟨404, "NOT_FOUND", true, true⟩))),
          { sampleAdapter with errCh := some 3, messageChan := some 7 }, w1) ∧
      (some (.amqp (some ⟨404, "NOT_FOUND", true, true⟩)) : GoError) ≠ none ∧
      w1.future = [.msgSend 7 sampleDelivery] :=
  (Listen_first_stream_wins sampleEnv { sampleAdapter with errCh := some 3, messageChan := some 7 }
    true
    { sampleWorld with
      future := [.msgSend 9 sampleDelivery, .errSend 3 (some ⟨404, "NOT_FOUND", true, true⟩),
        .msgSend 7 sampleDelivery] }
    [.msgSend 9 sampleDelivery, .errSend 3 (some ⟨404, "NOT_FOUND", true, true⟩)]
    [.msgSend 7 sampleDelivery] rfl (by decide)).1 3 _ rfl rfl rfl rfl

/-! ### Close -/

/-- Claim C7: `Close` records exactly one call of the close of the broker
channel and changes nothing else; its result is the unit value and the whole
outcome is the same whatever the broker answers to the close, so a second
`Close` completes the same way; it leaves the error stream field, the
delivery stream field, every stream and the events to come as they were, so
that `Listen` returns after `Close` exactly what it would have returned
before (nothing, when it would have blocked for ever). -/
theorem Close_swallows_error (env : Env Msg) (r : rabbitmq) (w : World) :
    Close env r w = ((), r, { w with calls := w.calls ++ [.Close r.channel] }) ∧
      (∀ env2 : Env Msg, Close env2 r w = Close env r w) ∧
      Close env (Close env r w).2.1 (Close env r w).2.2 =
        ((), r, { w with calls := w.calls ++ [.Close r.channel] ++ [.Close r.channel] }) ∧
      (Close env r w).2.1.errCh = r.errCh ∧
      (Close env r w).2.1.messageChan = r.messageChan ∧
      (Close env r w).2.2.errChans = w.errChans ∧
      (Close env r w).2.2.msgChans = w.msgChans ∧
      (Close env r w).2.2.future = w.future ∧
      (Close env r w).2.2.zlog = w.zlog ∧
      (∀ pick, (Listen env (Close env r w).2.1 pick (Close env r w).2.2).map (fun res => res.1) =
        (Listen env r pick w).map (fun res => res.1)) ∧
      (∀ pick, Listen env r pick w = none →
        Listen env (Close env r w).2.1 pick (Close env r w).2.2 = none) := by
  refine ⟨rfl, fun _ => rfl, rfl, rfl, rfl, rfl, rfl, rfl, rfl, ?_, ?_⟩
  · intro pick
    exact Listen_call env r pick (.Close r.channel) w
  · intro pick h
    have := Listen_call env r pick (.Close r.channel) w
    rw [h] at this
    simpa using this

/-- Witness of C7: the sample broker answers the close with an error; the
unregistered sample adapter, on which `Listen` blocks, is closed. -/
theorem Close_swallows_error_witness :
    Close sampleEnv sampleAdapter sampleStart =
        ((), sampleAdapter,
          { sampleStart with calls := sampleStart.calls ++ [.Close sampleAdapter.channel] }) ∧
      sampleEnv.Close sampleStart sampleAdapter.channel ≠ none ∧
      Listen sampleEnv (Close sampleEnv sampleAdapter sampleStart).2.1 true
        (Close sampleEnv sampleAdapter sampleStart).2.2 = none :=
  have h := Close_swallows_error sampleEnv sampleAdapter sampleStart
  ⟨h.1, by decide, h.2.2.2.2.2.2.2.2.2.2 true rfl⟩

/-! ### A closed delivery stream -/

/-- Writing back the state a stream already has changes nothing. -/
lemma World.msgChans_update_self (w : World) (s : Nat) :
    { w with msgChans := Function.update w.msgChans s (w.msgChans s) } = w := by
  cases w
  simp

/-- Listen on a closed and drained delivery stream, with a nil error stream:
the zero delivery, at once, and the state stays as it is. -/
lemma Listen_closed (env : Env Msg) (r : rabbitmq) (pick : Bool) (w : World) (s : Nat)
    (he : r.errCh = none) (hm : r.messageChan = some s)
    (hc : w.msgChans s = { pending := [], closed := true }) :
    Listen env r pick w = some ((none, none), r, w) := by
  have h := Listen_msg_after env r pick w [] w.future s rfl (by simp) hm
    (by simp [msgReady, hm, World.after, hc, ChanState.ready])
    (by simp [errReady, he])
  rw [h]
  simp only [World.after, List.foldl_nil, hc, ChanState.recv, Delivery.zero]
  have := World.msgChans_update_self w s
  rw [hc] at this
  simp only [Option.some.injEq, Prod.mk.injEq, true_and]
  exact this

/-- Any number of calls of `Listen` on a closed and drained delivery stream
return, each with a nil error, and leave the state as it is. -/
lemma runAll_Listen_closed (env : Env Msg) (r : rabbitmq) (w : World) (s : Nat)
    (he : r.errCh = none) (hm : r.messageChan = some s)
    (hc : w.msgChans s = { pending := [], closed := true }) :
    ∀ picks : List Bool,
      runAll env (picks.map .Listen) r w = some (picks.map (fun _ => none), r, w) := by
  intro picks
  induction picks with
  | nil => rfl
  | cons p ps ih =>
    simp only [List.map_cons, runAll, Op.run, Listen_closed env r p w s he hm hc, ih]

/-- Claim C10: with a nil error stream and a delivery stream that is closed
with nothing left to read, `Listen` does not block: it returns nil bytes and
a nil error and leaves the state as it is, and so does every later call,
whatever the runtime would pick.  A delivery whose `Body` is nil makes
`Listen` return the very same pair, and a delivery with any body of length
zero a pair with a body of length zero and a nil error. -/
theorem Listen_closed_stream_returns_zero (env : Env Msg) (r : rabbitmq) (w : World) (s : Nat)
    (he : r.errCh = none) (hm : r.messageChan = some s)
    (hc : w.msgChans s = { pending := [], closed := true }) :
    (∀ pick, Listen env r pick w = some ((none, none), r, w)) ∧
      (∀ picks : List Bool,
        runAll env (picks.map .Listen) r w = some (picks.map (fun _ => none), r, w)) ∧
      (∀ (pick : Bool) (w2 : World) (d : Delivery) (rest : List Delivery),
        (w2.msgChans s).pending = d :: rest →
        (d.Body = none →
          (Listen env r pick w2).map (fun res => res.1) =
            (Listen env r pick w).map (fun res => res.1)) ∧
        (d.Body.len = 0 →
          ∃ b : Bytes, (Listen env r pick w2).map (fun res => res.1) = some (b, none) ∧
            b.len = 0 ∧ Bytes.len none = 0)) := by
  refine ⟨fun pick => Listen_closed env r pick w s he hm hc,
    runAll_Listen_closed env r w s he hm hc, ?_⟩
  intro pick w2 d rest hp
  have h2 := Listen_msg_after env r pick w2 [] w2.future s rfl (by simp) hm
    (by simp [msgReady, hm, World.after, hp, ChanState.ready])
    (by simp [errReady, he])
  simp only [World.after, List.foldl_nil, ChanState.recv, hp] at h2
  constructor
  · intro hb
    rw [h2, Listen_closed env r pick w s he hm hc, hb]
    rfl
  · intro hb
    exact ⟨d.Body, by rw [h2]; rfl, hb, rfl⟩

/-- Witness of C10: the adapter registered on stream `7`, which is closed
and empty. -/
theorem Listen_closed_stream_returns_zero_witness :
    Listen sampleEnv { sampleAdapter with messageChan := some 7 } true
        { sampleWorld with msgChans := fun _ => { pending := [], closed := true } } =
      some ((none, none), { sampleAdapter with messageChan := some 7 },
        { sampleWorld with msgChans := fun _ => { pending := [], closed := true } }) :=
  (Listen_closed_stream_returns_zero sampleEnv { sampleAdapter with messageChan := some 7 }
    { sampleWorld with msgChans := fun _ => { pending := [], closed := true } } 7 rfl rfl rfl).1
    true

/-! ### Registration and reachable states -/

/-- The adapter that a successful `NewRabbitMQ` builds has both stream fields
nil. -/
lemma NewRabbitMQ_ok (env : Env Msg) (conn : ConnectionRef) (w0 w1 : World) (r0 : rabbitmq)
    (h : NewRabbitMQ env conn w0 = ((some r0, none), w1)) :
    r0.errCh = none ∧ r0.messageChan = none := by
  unfold NewRabbitMQ at h
  rcases hc : env.Channel w0 conn with ⟨ch, err⟩
  rw [hc] at h
  cases err with
  | some e => simp at h
  | none =>
    simp only [Prod.mk.injEq, Option.some.injEq, and_true] at h
    rw [← h.1]
    exact ⟨rfl, rfl⟩

/-- CreateMessageChannel by cases on the answer of `Consume`: the stream is
stored whatever the error is. -/
lemma CreateMessageChannel_spec (env : Env Msg) (r : rabbitmq) (queue consumer : String)
    (autoAck exclusive noLocal noWait : Bool) (args : Table) (w : World) :
    (CreateMessageChannel env r queue consumer autoAck exclusive noLocal noWait args w).1 =
        (env.Consume w r.channel queue consumer autoAck exclusive noLocal noWait args).2 ∧
      (CreateMessageChannel env r queue consumer autoAck exclusive noLocal noWait args w).2.1 =
        { r with messageChan :=
          (env.Consume w r.channel queue consumer autoAck exclusive noLocal noWait args).1 } ∧
      (CreateMessageChannel env r queue consumer autoAck exclusive noLocal noWait args w).2.2.calls =
        w.calls ++ [.Consume r.channel queue consumer autoAck exclusive noLocal noWait args] ∧
      (CreateMessageChannel env r queue consumer autoAck exclusive noLocal noWait args
        w).2.2.errChans = w.errChans ∧
      (CreateMessageChannel env r queue consumer autoAck exclusive noLocal noWait args
        w).2.2.msgChans = w.msgChans ∧
      (CreateMessageChannel env r queue consumer autoAck exclusive noLocal noWait args
        w).2.2.future = w.future := by
  unfold CreateMessageChannel
  rcases hq : env.Consume w r.channel queue consumer autoAck exclusive noLocal noWait args with
    ⟨st, err⟩
  cases err <;> simp [World.log, World.call]

/-- Publish never changes the adapter record. -/
lemma Publish_adapter (env : Env Msg) (r : rabbitmq) (exchangeName key : String)
    (message : Msg) (w : World) : (Publish env r exchangeName key message w).2.1 = r := by
  cases h : (env.Marshal message).2 with
  | none => exact (Publish_of_marshal_ok env r exchangeName key message w h).2.1
  | some e => rw [Publish_of_marshal_error env r exchangeName key message w e h]

/-- Listen never changes the adapter record. -/
lemma Listen_adapter (env : Env Msg) (r r1 : rabbitmq) (pick : Bool) (w w1 : World)
    (res : Bytes × GoError) (h : Listen env r pick w = some (res, r1, w1)) : r1 = r := by
  cases hw : Listen.wait r pick w.future w with
  | none => rw [Listen_of_wait_none env r pick w hw] at h; simp at h
  | some p =>
    obtain ⟨c, w2⟩ := p
    cases c
    · rw [Listen_of_wait_err env r pick w w2 hw] at h
      cases hi : r.errCh <;> rw [hi] at h <;> simp at h
      exact h.2.1.symm
    · rw [Listen_of_wait_msg env r pick w w2 hw] at h
      cases hi : r.messageChan <;> rw [hi] at h <;> simp at h
      exact h.2.1.symm

/-- A step leaves the adapter record as it is, unless it is a call of
`CreateMessageChannel`, which stores the stream of `Consume` and returns its
error. -/
lemma step_adapter (env : Env Msg) (op : Op Msg) (r r1 : rabbitmq) (w w1 : World)
    (e : GoError) (h : op.run env r w = some (e, r1, w1)) :
    (op.isCreateMessageChannel = false ∧ r1 = r) ∨
      (op.isCreateMessageChannel = true ∧
        ∃ queue consumer autoAck exclusive noLocal noWait args,
          e = (env.Consume w r.channel queue consumer autoAck exclusive noLocal noWait args).2 ∧
          r1 = { r with messageChan :=
            (env.Consume w r.channel queue consumer autoAck exclusive noLocal noWait args).1 }) := by
  cases op with
  | Close =>
    simp only [Op.run, Option.some.injEq, Prod.mk.injEq] at h
    have := congrArg Prod.fst h.2
    exact Or.inl ⟨rfl, this.symm⟩
  | Publish exchangeName key message =>
    simp only [Op.run, Option.some.injEq] at h
    have := Publish_adapter env r exchangeName key message w
    rw [h] at this
    exact Or.inl ⟨rfl, this⟩
  | CreateQueue name durable autoDelete exclusive noWait args =>
    simp only [Op.run, Option.some.injEq] at h
    have := (CreateQueue_spec env r name durable autoDelete exclusive noWait args w).2.2.1
    have h2 := congrArg (fun x => x.2.1) h
    simp only at h2
    rw [← h2]
    exact Or.inl ⟨rfl, this⟩
  | CreateExchange name kind durable autoDelete internal noWait args =>
    simp only [Op.run, Option.some.injEq] at h
    have := (CreateExchange_spec env r name kind durable autoDelete internal noWait args w).2.1
    rw [h] at this
    exact Or.inl ⟨rfl, this⟩
  | BindQueueWithExchange queueName key exchangeName noWait args =>
    simp only [Op.run, Option.some.injEq] at h
    have := (BindQueueWithExchange_spec env r queueName key exchangeName noWait args w).2.1
    rw [h] at this
    exact Or.inl ⟨rfl, this⟩
  | CreateMessageChannel queue consumer autoAck exclusive noLocal noWait args =>
    simp only [Op.run, Option.some.injEq] at h
    obtain ⟨h1, h2, _⟩ :=
      CreateMessageChannel_spec env r queue consumer autoAck exclusive noLocal noWait args w
    rw [h] at h1 h2
    exact Or.inr ⟨rfl, queue, consumer, autoAck, exclusive, noLocal, noWait, args, h1, h2⟩
  | Listen pick =>
    simp only [Op.run] at h
    cases hl : Listen env r pick w with
    | none => rw [hl] at h; simp at h
    | some p =>
      obtain ⟨res, r2, w2⟩ := p
      rw [hl] at h
      simp only [Option.some.injEq, Prod.mk.injEq] at h
      have := Listen_adapter env r r2 pick w w2 res hl
      exact Or.inl ⟨rfl, by rw [← h.2.1, this]⟩
  | idle dt n =>
    simp only [Op.run, Option.some.injEq, Prod.mk.injEq] at h
    exact Or.inl ⟨rfl, h.2.1.symm⟩

/-- A sequence of steps that returns: its first step returns, and the rest
returns from the state after it. -/
lemma runAll_cons (env : Env Msg) (op : Op Msg) (ops : List (Op Msg)) (errs : List GoError)
    (r0 r : rabbitmq) (w0 w : World) (h : runAll env (op :: ops) r0 w0 = some (errs, r, w)) :
    ∃ e r1 w1 es, op.run env r0 w0 = some (e, r1, w1) ∧
      runAll env ops r1 w1 = some (es, r, w) ∧ errs = e :: es := by
  simp only [runAll] at h
  cases h1 : op.run env r0 w0 with
  | none => simp [h1] at h
  | some p =>
    obtain ⟨e, r1, w1⟩ := p
    cases h2 : runAll env ops r1 w1 with
    | none => simp [h1, h2] at h
    | some q =>
      obtain ⟨es, r2, w2⟩ := q
      simp only [h1, h2, Option.some.injEq, Prod.mk.injEq] at h
      obtain ⟨he, hr, hw⟩ := h
      exact ⟨e, r1, w1, es, rfl, by rw [h2, hr, hw], he.symm⟩

/-- No sequence of steps changes the error stream field. -/
lemma runAll_errCh (env : Env Msg) :
    ∀ (ops : List (Op Msg)) (errs : List GoError) (r0 r : rabbitmq) (w0 w : World),
      runAll env ops r0 w0 = some (errs, r, w) → r.errCh = r0.errCh := by
  intro ops
  induction ops with
  | nil =>
    intro errs r0 r w0 w h
    simp only [runAll, Option.some.injEq, Prod.mk.injEq] at h
    rw [h.2.1]
  | cons op ops ih =>
    intro errs r0 r w0 w h
    obtain ⟨e, r1, w1, es, h1, h2, _⟩ := runAll_cons env op ops errs r0 r w0 w h
    rw [ih es r1 r w1 w h2]
    rcases step_adapter env op r0 r1 w0 w1 e h1 with ⟨_, h3⟩ | ⟨_, _, _, _, _, _, _, _, _, h3⟩
    · rw [h3]
    · rw [h3]

/-- As long as no registration has succeeded, and the broker client returns
no stream alongside an error, the delivery stream field stays nil. -/
lemma runAll_unregistered (env : Env Msg) (hnil : ConsumeNilOnError env) :
    ∀ (ops : List (Op Msg)) (errs : List GoError) (r0 r : rabbitmq) (w0 w : World),
      r0.messageChan = none → runAll env ops r0 w0 = some (errs, r, w) →
      NoRegistration ops errs → r.messageChan = none := by
  intro ops
  induction ops with
  | nil =>
    intro errs r0 r w0 w h0 h _
    simp only [runAll, Option.some.injEq, Prod.mk.injEq] at h
    rw [← h.2.1]
    exact h0
  | cons op ops ih =>
    intro errs r0 r w0 w h0 h hno
    obtain ⟨e, r1, w1, es, h1, h2, herrs⟩ := runAll_cons env op ops errs r0 r w0 w h
    subst herrs
    have hhead : op.isCreateMessageChannel = true → e ≠ none :=
      hno (op, e) (by simp)
    have htail : NoRegistration ops es := fun p hp => hno p (by simp [hp])
    apply ih es r1 r w1 w _ h2 htail
    rcases step_adapter env op r0 r1 w0 w1 e h1 with
      ⟨_, h3⟩ | ⟨hc, queue, consumer, autoAck, exclusive, noLocal, noWait, args, he, h3⟩
    · rw [h3]; exact h0
    · rw [h3]
      have hne := hhead hc
      rw [he] at hne
      exact hnil w0 r0.channel queue consumer autoAck exclusive noLocal noWait args hne

/-- With a nil error stream, whatever `Listen` returns comes with a nil
error. -/
lemma Listen_errCh_nil (env : Env Msg) (r : rabbitmq) (pick : Bool) (w : World)
    (he : r.errCh = none) (res : (Bytes × GoError) × rabbitmq × World)
    (h : Listen env r pick w = some res) : res.1.2 = none := by
  cases hw : Listen.wait r pick w.future w with
  | none => rw [Listen_of_wait_none env r pick w hw] at h; simp at h
  | some p =>
    obtain ⟨c, w2⟩ := p
    have hc := wait_errCh_nil r pick he w.future w w2 c hw
    subst hc
    rw [Listen_of_wait_msg env r pick w w2 hw] at h
    cases hi : r.messageChan <;> rw [hi] at h <;> simp at h
    rw [← h]

/-- With a nil delivery stream, whatever `Listen` returns comes with a
non-nil error: it is never a delivery. -/
lemma Listen_messageChan_nil (env : Env Msg) (r : rabbitmq) (pick : Bool) (w : World)
    (hm : r.messageChan = none) (res : (Bytes × GoError) × rabbitmq × World)
    (h : Listen env r pick w = some res) : res.1.1 = none ∧ res.1.2 ≠ none := by
  cases hw : Listen.wait r pick w.future w with
  | none => rw [Listen_of_wait_none env r pick w hw] at h; simp at h
  | some p =>
    obtain ⟨c, w2⟩ := p
    cases c
    · rw [Listen_of_wait_err env r pick w w2 hw] at h
      cases hi : r.errCh <;> rw [hi] at h <;> simp at h
      rw [← h]
      simp
    · rw [Listen_of_wait_msg env r pick w w2 hw, hm] at h
      simp at h

/-- With both stream fields nil, `Listen` never returns. -/
lemma Listen_nil_nil (env : Env Msg) (r : rabbitmq) (pick : Bool) (w : World)
    (he : r.errCh = none) (hm : r.messageChan = none) : Listen env r pick w = none :=
  Listen_of_wait_none env r pick w (wait_nil_nil r pick he hm w.future w)

/-- The sample broker returns no stream alongside an error. -/
lemma sampleEnv_consume_nil : ConsumeNilOnError sampleEnv := by
  intro w ch queue consumer autoAck exclusive noLocal noWait args h
  simp only [sampleEnv] at h ⊢
  split_ifs at h ⊢ with hq
  · simp at h
  · rfl

/-- The state after `sampleOps` is reached from `NewRabbitMQ`. -/
lemma sample_reached : ReachedBy sampleEnv sampleOps [none, notFound] sampleAdapter sampleEnd :=
  ⟨0, sampleWorld, sampleAdapter, sampleStart, rfl, rfl⟩

/-- In the sample run no registration succeeded. -/
lemma sample_noRegistration : NoRegistration sampleOps [none, notFound] := by
  intro p hp
  simp only [sampleOps, List.zip_cons_cons, List.zip_nil_right, List.mem_cons,
    List.mem_singleton, List.not_mem_nil, or_false] at hp
  rcases hp with rfl | rfl
  · intro h; simp [Op.isCreateMessageChannel] at h
  · intro _; simp [notFound]

/-- Claim C5: assume the broker client returns no stream alongside an error
of `Consume`.  In every state reached from `NewRabbitMQ` by steps among which
no call of `CreateMessageChannel` returned a nil error, the delivery stream
field is nil and `Listen` never returns (so never returns a delivery).  From
every reached state, a call of `CreateMessageChannel` that returns a nil
error leaves in the delivery stream field the stream that `Consume`
returned, and `Listen` then returns the body of the next delivery `d` that
this stream yields, and a nil error, taking `d` off the stream. -/
theorem messageChan_unset_until_registered (env : Env Msg) (hnil : ConsumeNilOnError env)
    (ops : List (Op Msg)) (errs : List GoError) (r : rabbitmq) (w : World)
    (h : ReachedBy env ops errs r w) :
    (NoRegistration ops errs → r.messageChan = none ∧ ∀ pick, Listen env r pick w = none) ∧
    (∀ queue consumer autoAck exclusive noLocal noWait args r1 w1,
      CreateMessageChannel env r queue consumer autoAck exclusive noLocal noWait args w =
        (none, r1, w1) →
      r1.messageChan =
          (env.Consume w r.channel queue consumer autoAck exclusive noLocal noWait args).1 ∧
        w1.msgChans = w.msgChans ∧ w1.future = w.future ∧
        ∀ s pick pre post d rest, r1.messageChan = some s → w1.future = pre ++ post →
          (∀ k, k < pre.length → ((w1.after (pre.take k)).msgChans s).ready = false) →
          ((w1.after pre).msgChans s).pending = d :: rest →
          ∃ w2, Listen env r1 pick w1 = some ((d.Body, none), r1, w2) ∧
            (w2.msgChans s).pending = rest) := by
  obtain ⟨conn, w0, r0, wn, hnew, hrun⟩ := h
  obtain ⟨he0, hm0⟩ := NewRabbitMQ_ok env conn w0 wn r0 hnew
  have he : r.errCh = none := by rw [runAll_errCh env ops errs r0 r wn w hrun, he0]
  constructor
  · intro hno
    have hm := runAll_unregistered env hnil ops errs r0 r wn w hm0 hrun hno
    exact ⟨hm, fun pick => Listen_nil_nil env r pick w he hm⟩
  · intro queue consumer autoAck exclusive noLocal noWait args r1 w1 hc
    obtain ⟨_, h2, _, _, h5, h6⟩ :=
      CreateMessageChannel_spec env r queue consumer autoAck exclusive noLocal noWait args w
    rw [hc] at h2 h5 h6
    simp only at h2 h5 h6
    refine ⟨by rw [h2], h5, h6, ?_⟩
    intro s pick pre post d rest hs hfut hquiet hp
    have he1 : r1.errCh = none := by rw [h2]; exact he
    have hl := Listen_msg_after env r1 pick w1 pre post s hfut
      (fun k hk => ⟨by simp [errReady, he1], by simpa [msgReady, hs] using hquiet k hk⟩) hs
      (by simp [msgReady, hs, ChanState.ready, hp]) (by simp [errReady, he1])
    have hrecv : ((w1.after pre).msgChans s).recv Delivery.zero =
        (d, { ((w1.after pre).msgChans s) with pending := rest }) := by
      simp [ChanState.recv, hp]
    rw [hrecv] at hl
    exact ⟨_, hl, by simp⟩

/-- Witness of C5: after declaring `q1` and failing to consume from `q2` the
delivery stream field is nil and `Listen` never returns; consuming from `q1`
then stores stream `7`. -/
theorem messageChan_unset_until_registered_witness :
    (NoRegistration sampleOps [none, notFound] →
      sampleAdapter.messageChan = none ∧ ∀ pick, Listen sampleEnv sampleAdapter pick sampleEnd = none) ∧
    (∀ queue consumer autoAck exclusive noLocal noWait args r1 w1,
      CreateMessageChannel sampleEnv sampleAdapter queue consumer autoAck exclusive noLocal
          noWait args sampleEnd = (none, r1, w1) →
      r1.messageChan =
          (sampleEnv.Consume sampleEnd sampleAdapter.channel queue consumer autoAck exclusive
            noLocal noWait args).1 ∧
        w1.msgChans = sampleEnd.msgChans ∧ w1.future = sampleEnd.future ∧
        ∀ s pick pre post d rest, r1.messageChan = some s → w1.future = pre ++ post →
          (∀ k, k < pre.length → ((w1.after (pre.take k)).msgChans s).ready = false) →
          ((w1.after pre).msgChans s).pending = d :: rest →
          ∃ w2, Listen sampleEnv r1 pick w1 = some ((d.Body, none), r1, w2) ∧
            (w2.msgChans s).pending = rest) :=
  messageChan_unset_until_registered sampleEnv sampleEnv_consume_nil sampleOps [none, notFound]
    sampleAdapter sampleEnd sample_reached

/-- Claim C8: no step assigns the error stream field; in every state reached
from `NewRabbitMQ` by any sequence of steps the field is nil, the `select` of
`Listen` never takes its error case, and whatever `Listen` returns comes with
a nil error. -/
theorem errCh_never_assigned (env : Env Msg) (ops : List (Op Msg)) (errs : List GoError)
    (r : rabbitmq) (w : World) (h : ReachedBy env ops errs r w) :
    (∀ (op : Op Msg) (ra rb : rabbitmq) (wa wb : World) (e : GoError),
      op.run env ra wa = some (e, rb, wb) → rb.errCh = ra.errCh) ∧
    r.errCh = none ∧
    (∀ pick fut wa wb c, Listen.wait r pick fut wa = some (c, wb) → c ≠ .errCase) ∧
    (∀ pick res, Listen env r pick w = some res → res.1.2 = none) := by
  obtain ⟨conn, w0, r0, wn, hnew, hrun⟩ := h
  obtain ⟨he0, _⟩ := NewRabbitMQ_ok env conn w0 wn r0 hnew
  have he : r.errCh = none := by rw [runAll_errCh env ops errs r0 r wn w hrun, he0]
  refine ⟨?_, he, ?_, ?_⟩
  · intro op ra rb wa wb e hop
    rcases step_adapter env op ra rb wa wb e hop with ⟨_, h3⟩ | ⟨_, _, _, _, _, _, _, _, _, h3⟩
    · rw [h3]
    · rw [h3]
  · intro pick fut wa wb c hw
    rw [wait_errCh_nil r pick he fut wa wb c hw]
    decide
  · intro pick res hl
    exact Listen_errCh_nil env r pick w he res hl

/-- Witness of C8: the state after the sample run. -/
theorem errCh_never_assigned_witness :
    (∀ (op : Op SampleMsg) (ra rb : rabbitmq) (wa wb : World) (e : GoError),
      op.run sampleEnv ra wa = some (e, rb, wb) → rb.errCh = ra.errCh) ∧
    sampleAdapter.errCh = none ∧
    (∀ pick fut wa wb c, Listen.wait sampleAdapter pick fut wa = some (c, wb) → c ≠ .errCase) ∧
    (∀ pick res, Listen sampleEnv sampleAdapter pick sampleEnd = some res → res.1.2 = none) :=
  errCh_never_assigned sampleEnv sampleOps [none, notFound] sampleAdapter sampleEnd
    ⟨0, sampleWorld, sampleAdapter, sampleStart, rfl, rfl⟩

/-- Claim C9: `CreateMessageChannel` leaves in the delivery stream field the
stream that `Consume` returned, whatever error came with it, and leaves the
logger, connection, channel and error stream fields as they were.  So, for an
adapter that holds a delivery stream `s`, a call for which `Consume` returns
no stream and an error `e` returns `e`, sets the field to nil (the adapter
record is not what it was), and a following `Listen` never returns a
delivery: whatever it returns is no bytes with a non-nil error, and with a
nil error stream it never returns, also when `s` has a delivery ready. -/
theorem CreateMessageChannel_stores_stream_on_error (env : Env Msg) (r : rabbitmq) (w : World)
    (queue consumer : String) (autoAck exclusive noLocal noWait : Bool) (args : Table) :
    (CreateMessageChannel env r queue consumer autoAck exclusive noLocal noWait args
        w).2.1.messageChan =
      (env.Consume w r.channel queue consumer autoAck exclusive noLocal noWait args).1 ∧
    (CreateMessageChannel env r queue consumer autoAck exclusive noLocal noWait args
        w).2.1.logger = r.logger ∧
    (CreateMessageChannel env r queue consumer autoAck exclusive noLocal noWait args
        w).2.1.conn = r.conn ∧
    (CreateMessageChannel env r queue consumer autoAck exclusive noLocal noWait args
        w).2.1.channel = r.channel ∧
    (CreateMessageChannel env r queue consumer autoAck exclusive noLocal noWait args
        w).2.1.errCh = r.errCh ∧
    (∀ s e r1 w1, r.messageChan = some s →
      env.Consume w r.channel queue consumer autoAck exclusive noLocal noWait args =
        (none, some e) →
      (CreateMessageChannel env r queue consumer autoAck exclusive noLocal noWait args w).2 =
        (r1, w1) →
      (CreateMessageChannel env r queue consumer autoAck exclusive noLocal noWait args w).1 =
          some e ∧
        r1.messageChan = none ∧ r1 ≠ r ∧ w1.msgChans = w.msgChans ∧
        (∀ pick res, Listen env r1 pick w1 = some res → res.1.1 = none ∧ res.1.2 ≠ none) ∧
        (r.errCh = none → ∀ pick, Listen env r1 pick w1 = none)) := by
  obtain ⟨h1, h2, _, _, h5, _⟩ :=
    CreateMessageChannel_spec env r queue consumer autoAck exclusive noLocal noWait args w
  refine ⟨by rw [h2], by rw [h2], by rw [h2], by rw [h2], by rw [h2], ?_⟩
  intro s e r1 w1 hs hfail hc
  rw [hfail] at h1 h2
  rw [hc] at h2 h5
  simp only at h1 h2 h5
  have hm1 : r1.messageChan = none := by rw [h2]
  refine ⟨h1, hm1, ?_, h5, ?_, ?_⟩
  · intro heq
    rw [heq, hs] at hm1
    simp at hm1
  · intro pick res hl
    exact Listen_messageChan_nil env r1 pick w1 hm1 res hl
  · intro he pick
    exact Listen_nil_nil env r1 pick w1 (by rw [h2]; exact he) hm1

/-- Witness of C9: the registered sample adapter, with a delivery ready on its
stream `7`, fails to consume from the unknown queue `q2`. -/
theorem CreateMessageChannel_stores_stream_on_error_witness :
    (CreateMessageChannel sampleEnv sampleRegistered "q2" "c1" true false false false []
        { sampleStart with msgChans := fun _ => { pending := [sampleDelivery] } }).1 =
      notFound ∧
    (CreateMessageChannel sampleEnv sampleRegistered "q2" "c1" true false false false []
        { sampleStart with msgChans := fun _ => { pending := [sampleDelivery] } }).2.1 =
      sampleAdapter ∧
    sampleAdapter.messageChan = none ∧ sampleAdapter ≠ sampleRegistered ∧
    (∀ pick, Listen sampleEnv sampleAdapter pick
      (CreateMessageChannel sampleEnv sampleRegistered "q2" "c1" true false false false []
        { sampleStart with msgChans := fun _ => { pending := [sampleDelivery] } }).2.2 = none) :=
  have h := (CreateMessageChannel_stores_stream_on_error sampleEnv sampleRegistered
    { sampleStart with msgChans := fun _ => { pending := [sampleDelivery] } }
    "q2" "c1" true false false false []).2.2.2.2.2 7 _ _ _ rfl rfl rfl
  ⟨h.1, rfl, h.2.1, h.2.2.1, h.2.2.2.2.2 rfl⟩

end RabbitMQSDK
